import Mathlib

/-!
Verification of the blog platform's content model.

The development shallowly embeds the pieces of the repository that the
specification talks about:

* the admin editor's excerpt derivation (`generateExcerpt` in
  `frontend-vue/src/views/admin/Editor.vue`),
* the home page's recent-post selection (`Home.vue`),
* the dashboard's status filter (`filteredPosts`),
* the Pinia auth store's `login` (frontend auth store),
* the content repository (create / update / delete / list / publish
  lifecycle) and the two API surfaces.  The Python backend that implements
  the repository is not part of the source tree, so those operations are
  modelled from the specification, as marked on each definition.

Strings are mostly handled as `List Char`; machine integers do not occur
(timestamps are `Nat`).
-/

namespace Blog

/-! ## Excerpt derivation (Editor.vue, `generateExcerpt`)

The source is
```
const generateExcerpt = (html, maxLength = 200) => {
  const text = html.replace(/<[^>]+>/g, '').trim()
  if (text.length <= maxLength) return text
  return text.substring(0, maxLength).trim() + [ellipsis]
}
```
with the ellipsis the three-character string "...".  The regex removes each
occurrence of a literal tag: a character `<`, then one or more characters
that are not `>`, then `>`.  A `<` that is not followed by such a closing
`>` stays in the text, as does any bare `>`.
-/

/-- Split a character list at the first occurrence of the character `>`:
returns the (`>`-free) prefix before it and the remainder after it, or
`none` when `>` does not occur. -/
def splitAtGt : List Char → Option (List Char × List Char)
  | [] => none
  | c :: rest =>
      if c = '>' then some ([], rest)
      else
        match splitAtGt rest with
        | some (before, after) => some (c :: before, after)
        | none => none

/-- Fuelled worker for the tag-stripping regex replacement
`html.replace(/<[^>]+>/g, ...)`.  At an opening `<`, the greedy class
`[^>]+` runs to the character just before the next `>`; the match succeeds
exactly when that run is non-empty, and scanning resumes after the `>`.
The fuel only bounds recursion depth; `stripTags` supplies enough of it. -/
def stripTagsFuel : Nat → List Char → List Char
  | 0, l => l
  | _ + 1, [] => []
  | fuel + 1, c :: rest =>
      if c = '<' then
        match splitAtGt rest with
        | some (before, after) =>
            if before.isEmpty then c :: stripTagsFuel fuel rest
            else stripTagsFuel fuel after
        | none => c :: stripTagsFuel fuel rest
      else c :: stripTagsFuel fuel rest

/-- Remove every complete `<...>` tag from the character list, exactly as
the editor's regex replacement does. -/
def stripTags (l : List Char) : List Char := stripTagsFuel l.length l

/-- Whitespace in the sense of JavaScript's `String.prototype.trim`
(restricted to the ASCII whitespace characters that can occur here). -/
def isJsSpace (c : Char) : Bool :=
  c = ' ' || c = '\t' || c = '\n' || c = '\r' || c = '\x0b' || c = '\x0c'

/-- JavaScript's `String.prototype.trim` on a character list: drop
whitespace from both ends. -/
def trimChars (l : List Char) : List Char :=
  ((l.dropWhile isJsSpace).reverse.dropWhile isJsSpace).reverse

/-- The editor's `generateExcerpt(html, maxLength = 200)`: strip tags,
trim, and if the text is longer than `maxLength`, cut it at `maxLength`,
trim again and append the three-character ellipsis. -/
def generateExcerpt (html : List Char) (maxLength : Nat := 200) : List Char :=
  let text := trimChars (stripTags html)
  if text.length ≤ maxLength then text
  else trimChars (text.take maxLength) ++ ['.', '.', '.']

/-- Well-formedness of markup with respect to tag characters: every `<`
opens a completed tag (a later `>` with at least one character in
between), and every `>` closes one.  Fuelled like `stripTagsFuel`;
exhausted fuel on a non-empty list counts as not well-formed. -/
def wellFormedFuel : Nat → List Char → Bool
  | 0, l => l.isEmpty
  | _ + 1, [] => true
  | fuel + 1, c :: rest =>
      if c = '<' then
        match splitAtGt rest with
        | some (before, after) => !before.isEmpty && wellFormedFuel fuel after
        | none => false
      else decide (c ≠ '>') && wellFormedFuel fuel rest

/-- Markup in which every tag character belongs to a complete `<...>` tag. -/
def wellFormedHtml (l : List Char) : Bool := wellFormedFuel l.length l

example : generateExcerpt "<p>Hello <b>World</b></p>".data 200 = "Hello World".data := by decide

example : generateExcerpt "  Short text.  ".data 200 = "Short text.".data := by decide

example : wellFormedHtml "<p>Hello <b>World</b></p>".data = true := by decide

example : wellFormedHtml "a < b".data = false := by decide

/-- A complete tag in the middle of text is removed, while a stray `<`
survives the replacement. -/
example : stripTags "a<b>c".data = "ac".data := by decide

example : stripTags "1 < 2".data = "1 < 2".data := by decide

theorem splitAtGt_length {l : List Char} :
    ∀ {b a : List Char}, splitAtGt l = some (b, a) → a.length < l.length := by
  induction l with
  | nil => intro b a h; exact absurd h (by simp [splitAtGt])
  | cons c rest ih =>
      intro b a h
      rw [splitAtGt] at h
      by_cases hc : c = '>'
      · rw [if_pos hc] at h
        cases h
        simp
      · rw [if_neg hc] at h
        cases hs : splitAtGt rest with
        | none => rw [hs] at h; cases h
        | some pr =>
            obtain ⟨b0, a0⟩ := pr
            rw [hs] at h
            simp only [Option.some.injEq, Prod.mk.injEq] at h
            obtain ⟨-, ha⟩ := h
            subst ha
            have := ih hs
            simp only [List.length_cons]
            omega

theorem stripTagsFuel_length : ∀ (fuel : Nat) (l : List Char),
    (stripTagsFuel fuel l).length ≤ l.length := by
  intro fuel
  induction fuel with
  | zero => intro l; simp [stripTagsFuel]
  | succ f ih =>
      intro l
      cases l with
      | nil => simp [stripTagsFuel]
      | cons c rest =>
          rw [stripTagsFuel]
          by_cases hc : c = '<'
          · rw [if_pos hc]
            cases hs : splitAtGt rest with
            | none =>
                simpa [List.length_cons] using ih rest
            | some pr =>
                obtain ⟨b0, a0⟩ := pr
                by_cases hb : b0.isEmpty
                · simpa [hb, List.length_cons] using ih rest
                · have hlen := splitAtGt_length hs
                  have := ih a0
                  simp only [hb, if_neg, Bool.false_eq_true, not_false_iff, List.length_cons]
                  omega
          · rw [if_neg hc]
            simpa [List.length_cons] using ih rest

theorem stripTagsFuel_no_tagChar : ∀ (fuel : Nat) (l : List Char),
    wellFormedFuel fuel l = true →
      ∀ c ∈ stripTagsFuel fuel l, c ≠ '<' ∧ c ≠ '>' := by
  intro fuel
  induction fuel with
  | zero =>
      intro l hw
      rw [wellFormedFuel] at hw
      rw [List.isEmpty_iff] at hw
      subst hw
      intro c hc
      simp [stripTagsFuel] at hc
  | succ f ih =>
      intro l hw
      cases l with
      | nil => intro c hc; simp [stripTagsFuel] at hc
      | cons c0 rest =>
          rw [wellFormedFuel] at hw
          rw [stripTagsFuel]
          by_cases hc : c0 = '<'
          · rw [if_pos hc] at hw ⊢
            cases hs : splitAtGt rest with
            | none => rw [hs] at hw; cases hw
            | some pr =>
                obtain ⟨b0, a0⟩ := pr
                rw [hs] at hw
                simp only [Bool.and_eq_true, Bool.not_eq_true'] at hw
                obtain ⟨hb, hwa⟩ := hw
                show ∀ c ∈ (if b0.isEmpty = true then c0 :: stripTagsFuel f rest
                    else stripTagsFuel f a0), c ≠ '<' ∧ c ≠ '>'
                rw [if_neg (by simp [hb])]
                exact ih a0 hwa
          · rw [if_neg hc] at hw ⊢
            simp only [Bool.and_eq_true, decide_eq_true_eq] at hw
            obtain ⟨hgt, hwr⟩ := hw
            intro c hcmem
            rcases List.mem_cons.mp hcmem with hhd | htl
            · subst hhd; exact ⟨hc, hgt⟩
            · exact ih rest hwr c htl

theorem trimChars_sublist (l : List Char) : List.Sublist (trimChars l) l := by
  have h1 : List.Sublist ((l.dropWhile isJsSpace).reverse.dropWhile isJsSpace).reverse
      (l.dropWhile isJsSpace).reverse.reverse := (List.dropWhile_sublist _).reverse
  rw [List.reverse_reverse] at h1
  exact h1.trans (List.dropWhile_sublist _)

theorem trimChars_length_le (l : List Char) : (trimChars l).length ≤ l.length :=
  (trimChars_sublist l).length_le

theorem mem_of_mem_trimChars {l : List Char} {c : Char} (h : c ∈ trimChars l) : c ∈ l :=
  (trimChars_sublist l).mem h

set_option maxRecDepth 40000 in
/-- C1, as the specification states it, is false: the excerpt can exceed
200 characters (truncation appends a three-character ellipsis after the
200-character cut), and a stray `<` that opens no complete tag survives
into the excerpt.  The witness input is a space, a `<`, and 202 letters. -/
theorem excerpt_claim_as_stated_false :
    ¬ (∀ html : List Char, (generateExcerpt html 200).length ≤ 200 ∧
        '<' ∉ generateExcerpt html 200 ∧ '>' ∉ generateExcerpt html 200) := by
  intro h
  exact absurd (h (' ' :: '<' :: List.replicate 202 'a')) (by decide)

/-- C1 (amended): for every HTML content string, the derived excerpt
(`generateExcerpt` with its default maximum of 200) has length at most
203, that is, the maximum plus the three-character ellipsis appended on
truncation; and whenever every `<` of the input opens a completed tag and
every `>` closes one, the excerpt contains no raw tag character. -/
theorem excerpt_bounded_and_tagfree (html : List Char) :
    (generateExcerpt html 200).length ≤ 203 ∧
      (wellFormedHtml html = true →
        ∀ c ∈ generateExcerpt html 200, c ≠ '<' ∧ c ≠ '>') := by
  constructor
  · rw [generateExcerpt]
    by_cases hlen : (trimChars (stripTags html)).length ≤ 200
    · rw [if_pos hlen]
      omega
    · rw [if_neg hlen]
      rw [List.length_append]
      have h1 : ((trimChars (stripTags html)).take 200).length ≤ 200 := by
        rw [List.length_take]; omega
      have h2 := trimChars_length_le ((trimChars (stripTags html)).take 200)
      simp only [List.length_cons, List.length_nil]
      omega
  · intro hw c hmem
    rw [generateExcerpt] at hmem
    have core : ∀ d ∈ trimChars (stripTags html), d ≠ '<' ∧ d ≠ '>' := by
      intro d hd
      exact stripTagsFuel_no_tagChar html.length html hw d (mem_of_mem_trimChars hd)
    by_cases hlen : (trimChars (stripTags html)).length ≤ 200
    · rw [if_pos hlen] at hmem
      exact core c hmem
    · rw [if_neg hlen] at hmem
      rcases List.mem_append.mp hmem with hleft | hright
      · exact core c ((List.take_sublist _ _).mem (mem_of_mem_trimChars hleft))
      · have : c = '.' := by
          simpa using hright
        subst this
        exact ⟨by decide, by decide⟩

/-- The amended C1 at a concrete well-formed input, with the
well-formedness hypothesis discharged by evaluation. -/
theorem excerpt_bounded_and_tagfree_witness :
    (generateExcerpt "<p>Hello <b>World</b></p>".data 200).length ≤ 203 ∧
      ∀ c ∈ generateExcerpt "<p>Hello <b>World</b></p>".data 200, c ≠ '<' ∧ c ≠ '>' :=
  ⟨(excerpt_bounded_and_tagfree "<p>Hello <b>World</b></p>".data).1,
   (excerpt_bounded_and_tagfree "<p>Hello <b>World</b></p>".data).2 (by decide)⟩

/-! ## Content repository data model

The repository itself is implemented by the Python backend, which is not
part of the source tree (only its Terraform packaging, its HTTP clients
and the table layout are).  The definitions below are therefore modelled
from the specification, as their doc comments state; the table's two
secondary orderings (status → published_at, category → published_at) are
visible in `terraform/modules/dynamodb/main.tf`.
-/

/-- Publication status of a post. -/
inductive Status where
  | draft
  | published
deriving DecidableEq, Repr

/-- A post record, with the attributes the data model lists.  Timestamps
are plain naturals; the id is an abstract unique natural. -/
structure Post where
  id : Nat
  title : String
  slug : String
  contentDelta : String
  contentHtml : String
  excerpt : String
  category : Option String
  status : Status
  createdAt : Nat
  updatedAt : Nat
  publishedAt : Option Nat
deriving DecidableEq, Repr

/-- The error taxonomy of the specification. -/
inductive RepoError where
  | validationError
  | notFoundError
  | authenticationError
  | conflictError
deriving DecidableEq, Repr

/-- A partial-fields update request: absent fields are left untouched. -/
structure UpdateReq where
  title : Option String := none
  contentDelta : Option String := none
  contentHtml : Option String := none
  excerpt : Option String := none
  category : Option (Option String) := none
  status : Option Status := none
deriving Repr

/-- Modelled from the spec: the repository's `update` merge of partial
fields onto one post (the Python backend implementing it is missing from
the tree).  It merges the given fields, bumps `updated_at`, and sets
`published_at` exactly when the status transitions DRAFT→PUBLISHED for
the first time, that is, when no `published_at` exists yet; an existing
`published_at` is never moved or cleared. -/
def applyUpdate (p : Post) (u : UpdateReq) (now : Nat) : Post :=
  let newStatus := u.status.getD p.status
  { p with
    title := u.title.getD p.title
    contentDelta := u.contentDelta.getD p.contentDelta
    contentHtml := u.contentHtml.getD p.contentHtml
    excerpt := u.excerpt.getD p.excerpt
    category := u.category.getD p.category
    status := newStatus
    updatedAt := now
    publishedAt :=
      if p.status = Status.draft ∧ newStatus = Status.published ∧ p.publishedAt = none
      then some now else p.publishedAt }

/-- A sequence of update operations applied in order, each with its own
timestamp. -/
def applyUpdates (p : Post) (ops : List (UpdateReq × Nat)) : Post :=
  ops.foldl (fun q op => applyUpdate q op.1 op.2) p

/-- A create request, as the admin editor sends it. -/
structure CreateReq where
  title : String
  contentDelta : String := ""
  contentHtml : String := ""
  excerpt : String := ""
  category : Option String := none
  status : Status := Status.draft
deriving Repr

/-- Characters of a slug: alphanumerics are lowered, everything else
becomes a dash. -/
def slugChar (c : Char) : Char := if c.isAlphanum then c.toLower else '-'

/-- Whitespace trimming on whole strings, reusing `trimChars`. -/
def jsTrim (s : String) : String := String.mk (trimChars s.data)

/-- Modelled from the spec: the slug derived from a title — trim, lower
the alphanumerics, replace every other character by a dash. -/
def slugify (title : String) : String := String.mk ((jsTrim title).data.map slugChar)

/-- Modelled from the spec: the bounded numeric-suffix retry for slug
collisions — append `-2`, `-3`, ... with a budget of three attempts, and
fail with ConflictError when the budget is exhausted. -/
def trySuffix (taken : List String) (base : String) : Nat → Nat → Except RepoError String
  | 0, _ => Except.error RepoError.conflictError
  | budget + 1, n =>
      if base ++ "-" ++ toString n ∈ taken then trySuffix taken base budget (n + 1)
      else Except.ok (base ++ "-" ++ toString n)

/-- Modelled from the spec: slug assignment — take the derived slug when
free, otherwise append a numeric suffix, bumping it on each conflict. -/
def uniqueSlug (taken : List String) (base : String) : Except RepoError String :=
  if base ∈ taken then trySuffix taken base 3 2 else Except.ok base

/-- The next fresh id: one more than the largest id in the store. -/
def nextId (ps : List Post) : Nat := ps.foldr (fun p m => max p.id m) 0 + 1

/-- Modelled from the spec: the repository's `create` — fails with
ValidationError on a blank title, assigns id and slug, sets
`created_at`/`updated_at`, and sets `published_at` iff the post is
created already PUBLISHED. -/
def createPost (ps : List Post) (r : CreateReq) (now : Nat) :
    Except RepoError (Post × List Post) :=
  if jsTrim r.title = "" then Except.error RepoError.validationError
  else
    match uniqueSlug (ps.map Post.slug) (slugify r.title) with
    | Except.error e => Except.error e
    | Except.ok slug =>
        let p : Post :=
          { id := nextId ps, title := r.title, slug := slug,
            contentDelta := r.contentDelta, contentHtml := r.contentHtml,
            excerpt := r.excerpt, category := r.category, status := r.status,
            createdAt := now, updatedAt := now,
            publishedAt := if r.status = Status.published then some now else none }
        Except.ok (p, ps ++ [p])

/-- Modelled from the spec: `update(id, partialFields)` on the store —
NotFoundError when the id is absent, otherwise the merged post replaces
the old record. -/
def repoUpdate (ps : List Post) (id : Nat) (u : UpdateReq) (now : Nat) :
    Except RepoError (Post × List Post) :=
  match ps.find? (fun p => decide (p.id = id)) with
  | none => Except.error RepoError.notFoundError
  | some p =>
      let p2 := applyUpdate p u now
      Except.ok (p2, ps.map (fun q => if q.id = id then p2 else q))

/-- Modelled from the spec: `delete(id)` — permanent removal, NotFoundError
when absent (repeated deletion of the same id is an error). -/
def repoDelete (ps : List Post) (id : Nat) : Except RepoError (List Post) :=
  if ps.any (fun p => decide (p.id = id)) then
    Except.ok (ps.filter (fun p => decide (¬ p.id = id)))
  else Except.error RepoError.notFoundError

/-- Modelled from the spec: `getById`. -/
def getById (ps : List Post) (id : Nat) : Except RepoError Post :=
  match ps.find? (fun p => decide (p.id = id)) with
  | some p => Except.ok p
  | none => Except.error RepoError.notFoundError

/-- Modelled from the spec: `getBySlug` for public callers — only a
PUBLISHED post is returned. -/
def getBySlugPublic (ps : List Post) (slug : String) : Except RepoError Post :=
  match ps.find? (fun p => decide (p.slug = slug ∧ p.status = Status.published)) with
  | some p => Except.ok p
  | none => Except.error RepoError.notFoundError

/-- Sort key for listings: the publication timestamp, with 0 for a post
that has none. -/
def pubKey (p : Post) : Nat := p.publishedAt.getD 0

/-- The listing order: descending publication timestamp, most recent
first. -/
def pubDesc (a b : Post) : Prop := pubKey b ≤ pubKey a

instance : DecidableRel pubDesc := fun a b => Nat.decLe (pubKey b) (pubKey a)

instance : IsTotal Post pubDesc :=
  ⟨fun a b => by unfold pubDesc; exact Nat.le_total (pubKey b) (pubKey a)⟩

instance : IsTrans Post pubDesc :=
  ⟨fun _ _ _ h1 h2 => by unfold pubDesc at h1 h2 ⊢; exact Nat.le_trans h2 h1⟩

/-- Acceptance of one post by a listing filter: an absent component
accepts everything, a present one requires equality. -/
def matchesFilter (statusF : Option Status) (catF : Option String) (p : Post) : Bool :=
  (match statusF with
    | none => true
    | some st => decide (p.status = st)) &&
  (match catF with
    | none => true
    | some c => decide (p.category = some c))

/-- Modelled from the spec: `list(filter: {status?, category?, limit})` —
filter by status and category, order by `published_at` descending, and
cut to the limit. -/
def listPosts (ps : List Post) (statusF : Option Status) (catF : Option String)
    (limit : Option Nat) : List Post :=
  match limit with
  | none => List.insertionSort pubDesc (ps.filter (matchesFilter statusF catF))
  | some n => (List.insertionSort pubDesc (ps.filter (matchesFilter statusF catF))).take n

/-- Modelled from the spec: `latestPublished()` — the single most recently
published post, when one exists. -/
def latestPublished (ps : List Post) : Option Post :=
  (listPosts ps (some Status.published) none none).head?

/-- A category record: a case-sensitive name identity and an optional
description. -/
structure Category where
  name : String
  description : String := ""
deriving DecidableEq, Repr

/-- The whole persistent state: post records and category records. -/
structure Store where
  posts : List Post
  categories : List Category
deriving Repr

/-- Category listing with derived post counts. -/
def categoriesWithCounts (s : Store) : List (String × Nat) :=
  s.categories.map (fun c =>
    (c.name, (s.posts.filter (fun p => decide (p.category = some c.name))).length))

/-- The admin endpoints: full CRUD on posts, category CRUD, and the
credential-verification probe. -/
inductive AdminOp where
  | listPosts (statusF : Option Status)
  | getPost (id : Nat)
  | create (r : CreateReq)
  | update (id : Nat) (u : UpdateReq)
  | delete (id : Nat)
  | listCategories
  | createCategory (name : String) (description : String)
  | deleteCategory (name : String)
  | health

/-- Results carried by a successful API response. -/
inductive ApiResult where
  | posts (ps : List Post)
  | post (p : Post)
  | categories (cs : List (String × Nat))
  | done
deriving Repr

/-- Modelled from the spec: the admin API — every request first compares
the bearer credential against the configured secret for exact equality;
any mismatch or absence fails with AuthenticationError before any
resource is consulted, and an erroring request leaves the store
unchanged. -/
def handleAdmin (secret : String) (auth : Option String) (op : AdminOp) (now : Nat)
    (s : Store) : Except RepoError ApiResult × Store :=
  if auth = some secret then
    match op with
    | AdminOp.listPosts sf =>
        (Except.ok (ApiResult.posts (listPosts s.posts sf none none)), s)
    | AdminOp.getPost id =>
        match getById s.posts id with
        | Except.ok p => (Except.ok (ApiResult.post p), s)
        | Except.error e => (Except.error e, s)
    | AdminOp.create r =>
        match createPost s.posts r now with
        | Except.ok (p, ps) => (Except.ok (ApiResult.post p), { s with posts := ps })
        | Except.error e => (Except.error e, s)
    | AdminOp.update id u =>
        match repoUpdate s.posts id u now with
        | Except.ok (p, ps) => (Except.ok (ApiResult.post p), { s with posts := ps })
        | Except.error e => (Except.error e, s)
    | AdminOp.delete id =>
        match repoDelete s.posts id with
        | Except.ok ps => (Except.ok ApiResult.done, { s with posts := ps })
        | Except.error e => (Except.error e, s)
    | AdminOp.listCategories =>
        (Except.ok (ApiResult.categories (categoriesWithCounts s)), s)
    | AdminOp.createCategory name desc =>
        if s.categories.any (fun c => decide (c.name = name)) then
          (Except.ok ApiResult.done,
            { s with categories :=
                s.categories.map (fun c => if c.name = name then ⟨name, desc⟩ else c) })
        else
          (Except.ok ApiResult.done, { s with categories := s.categories ++ [⟨name, desc⟩] })
    | AdminOp.deleteCategory name =>
        if s.categories.any (fun c => decide (c.name = name)) then
          (Except.ok ApiResult.done,
            { s with categories := s.categories.filter (fun c => decide (¬ c.name = name)) })
        else (Except.error RepoError.notFoundError, s)
    | AdminOp.health => (Except.ok ApiResult.done, s)
  else (Except.error RepoError.authenticationError, s)

/-- The public endpoints: list published posts, latest post, post by slug,
categories with counts. -/
inductive PublicOp where
  | listPosts (category : Option String) (limit : Nat)
  | latest
  | bySlug (slug : String)
  | listCategories

/-- Modelled from the spec: the public API — a read-only, capability-gated
view serving only published content. -/
def handlePublic (op : PublicOp) (s : Store) : Except RepoError ApiResult × Store :=
  match op with
  | PublicOp.listPosts c n =>
      (Except.ok (ApiResult.posts (listPosts s.posts (some Status.published) c (some n))), s)
  | PublicOp.latest =>
      match latestPublished s.posts with
      | some p => (Except.ok (ApiResult.post p), s)
      | none => (Except.error RepoError.notFoundError, s)
  | PublicOp.bySlug sl =>
      match getBySlugPublic s.posts sl with
      | Except.ok p => (Except.ok (ApiResult.post p), s)
      | Except.error e => (Except.error e, s)
  | PublicOp.listCategories =>
      (Except.ok (ApiResult.categories (categoriesWithCounts s)), s)

/-! ## Frontend definitions taken directly from the source -/

/-- A post row as the admin dashboard receives it from the API: the status
is the raw string of the response. -/
structure DashPost where
  id : Nat
  title : String
  status : String
  category : Option String
deriving DecidableEq, Repr

/-- The admin dashboard's `filteredPosts` computed property: with an empty
filter all posts pass, otherwise exactly those whose status string equals
the selected filter. -/
def filteredPosts (filter : String) (posts : List DashPost) : List DashPost :=
  if filter = "" then posts else posts.filter (fun p => decide (p.status = filter))

/-- The home page's `recentPosts` computation: from the posts-list
response, drop every post whose id equals the featured latest post's id
(no post is dropped when there is no latest post), then keep the first
three. -/
def recentPosts (latest : Option Post) (posts : List Post) : List Post :=
  (posts.filter (fun p => decide (¬ latest.map Post.id = some p.id))).take 3

/-- The client-side credential state: the auth store's token ref and the
localStorage slot `adminToken`. -/
structure AuthState where
  token : Option String
  storedToken : Option String
deriving DecidableEq, Repr

/-- The credential that `api.verifyToken(candidate)` actually sends.  The
request builder first spreads the explicit
`Authorization: Bearer candidate` header into the header object, but then
the `auth: true` branch overwrites that entry with the token read from
localStorage whenever that token is present and non-empty (truthy).  So
the stored token takes precedence; the explicit candidate header survives
only as the fallback, when no non-empty stored token exists and the
candidate itself is non-empty. -/
def sentCredential (st : AuthState) (candidate : String) : Option String :=
  match st.storedToken with
  | some t =>
      if t ≠ "" then some t
      else if candidate ≠ "" then some candidate else none
  | none => if candidate ≠ "" then some candidate else none

/-- The auth store's `login`: verify through the API; on success store the
candidate both in the token ref and in localStorage and return `true`; on
a verification error return `false` and leave all state untouched.  The
server's verdict is abstracted as the predicate `accepts` on the sent
credential.  Because of the header precedence in `sentCredential`, the
credential verified is the stored token whenever a non-empty one exists,
even though the candidate is what then gets stored. -/
def login (st : AuthState) (candidate : String) (accepts : Option String → Bool) :
    AuthState × Bool :=
  if accepts (sentCredential st candidate) then
    ({ token := some candidate, storedToken := some candidate }, true)
  else (st, false)

/-! ## Concrete records used by the witnesses -/

/-- A draft post, as the first create of the spec's "Hello World" scenario
produces it. -/
def hwPost1 : Post :=
  { id := 1, title := "Hello World", slug := "hello-world", contentDelta := "",
    contentHtml := "", excerpt := "", category := none, status := Status.draft,
    createdAt := 0, updatedAt := 0, publishedAt := none }

/-- The post a second create with the same title produces: a fresh id and
the suffixed slug. -/
def hwPost2 : Post :=
  { id := 2, title := "Hello World", slug := "hello-world-2", contentDelta := "",
    contentHtml := "", excerpt := "", category := none, status := Status.draft,
    createdAt := 1, updatedAt := 1, publishedAt := none }

/-- A published post with a recorded first-publication timestamp. -/
def pubPost : Post :=
  { id := 3, title := "Pub", slug := "pub", contentDelta := "", contentHtml := "",
    excerpt := "", category := none, status := Status.published,
    createdAt := 0, updatedAt := 1, publishedAt := some 1 }

/-- The create request of the spec's scenario. -/
def helloReq : CreateReq := { title := "Hello World" }

/-- A dashboard row with PUBLISHED status. -/
def dashRow : DashPost := { id := 1, title := "Pub", status := "PUBLISHED", category := none }

/-! ## C2: the publish-timestamp lifecycle -/

theorem applyUpdate_publishedAt_some {p : Post} {t : Nat} (h : p.publishedAt = some t)
    (u : UpdateReq) (now : Nat) : (applyUpdate p u now).publishedAt = some t := by
  simp [applyUpdate, h]

theorem applyUpdates_publishedAt_some (t : Nat) :
    ∀ (ops : List (UpdateReq × Nat)) (p : Post), p.publishedAt = some t →
      (applyUpdates p ops).publishedAt = some t := by
  intro ops
  induction ops with
  | nil => intro p h; simpa [applyUpdates] using h
  | cons op rest ih =>
      intro p h
      show (applyUpdates (applyUpdate p op.1 op.2) rest).publishedAt = some t
      exact ih (applyUpdate p op.1 op.2) (applyUpdate_publishedAt_some h op.1 op.2)

/-- C2: `published_at` is assigned exactly once: an update sets it iff the
post moves DRAFT→PUBLISHED with no timestamp recorded yet; once present
the value survives every further update, also the whole
PUBLISHED→DRAFT→PUBLISHED cycle. -/
theorem publishedAt_set_once (p : Post) :
    (∀ t : Nat, p.publishedAt = some t →
        ∀ ops : List (UpdateReq × Nat), (applyUpdates p ops).publishedAt = some t) ∧
    (∀ (u : UpdateReq) (now : Nat), p.publishedAt = none → p.status = Status.draft →
        u.status.getD p.status = Status.published →
        (applyUpdate p u now).publishedAt = some now) ∧
    (∀ (u : UpdateReq) (now : Nat),
        ¬ (p.status = Status.draft ∧ u.status.getD p.status = Status.published ∧
            p.publishedAt = none) →
        (applyUpdate p u now).publishedAt = p.publishedAt) ∧
    (∀ (t n1 n2 : Nat), p.publishedAt = some t →
        (applyUpdate (applyUpdate p { status := some Status.draft } n1)
            { status := some Status.published } n2).publishedAt = some t) := by
  refine ⟨?_, ?_, ?_, ?_⟩
  · intro t h ops
    exact applyUpdates_publishedAt_some t ops p h
  · intro u now h1 h2 h3
    rw [h2] at h3
    simp [applyUpdate, h1, h2, h3]
  · intro u now hneg
    simp only [applyUpdate]
    rw [if_neg hneg]
  · intro t n1 n2 h
    exact applyUpdate_publishedAt_some (applyUpdate_publishedAt_some h _ n1) _ n2

/-- The write-once property at a concrete input: a published post keeps
its original timestamp through an unpublish–republish cycle. -/
theorem publishedAt_set_once_witness :
    (applyUpdates pubPost
        [({ status := some Status.draft }, 6),
         ({ status := some Status.published }, 7)]).publishedAt = some 1 :=
  (publishedAt_set_once pubPost).1 1 (by decide)
    [({ status := some Status.draft }, 6), ({ status := some Status.published }, 7)]

/-! ## C3: slug uniqueness under identical titles -/

theorem suffixed_ne (base : String) (n : Nat) : base ++ "-" ++ toString n ≠ base := by
  intro he
  have h1 : (base ++ "-" ++ toString n).length = base.length := by rw [he]
  rw [String.length_append, String.length_append] at h1
  have h2 : ("-" : String).length = 1 := rfl
  omega

theorem trySuffix_ok_not_mem {taken : List String} {base : String} :
    ∀ {budget n : Nat} {s : String}, trySuffix taken base budget n = Except.ok s →
      s ∉ taken := by
  intro budget
  induction budget with
  | zero => intro n s h; exact absurd h (by simp [trySuffix])
  | succ b ih =>
      intro n s h
      rw [trySuffix] at h
      by_cases hmem : base ++ "-" ++ toString n ∈ taken
      · rw [if_pos hmem] at h
        exact ih h
      · rw [if_neg hmem] at h
        cases h
        exact hmem

theorem uniqueSlug_ok_not_mem {taken : List String} {base s : String}
    (h : uniqueSlug taken base = Except.ok s) : s ∉ taken := by
  rw [uniqueSlug] at h
  by_cases hb : base ∈ taken
  · rw [if_pos hb] at h
    exact trySuffix_ok_not_mem h
  · rw [if_neg hb] at h
    cases h
    exact hb

theorem createPost_ok_slug {ps : List Post} {r : CreateReq} {now : Nat} {p : Post}
    {ps2 : List Post} (h : createPost ps r now = Except.ok (p, ps2)) :
    uniqueSlug (ps.map Post.slug) (slugify r.title) = Except.ok p.slug ∧
      ps2 = ps ++ [p] := by
  rw [createPost] at h
  by_cases ht : jsTrim r.title = ""
  · rw [if_pos ht] at h
    cases h
  · rw [if_neg ht] at h
    cases hs : uniqueSlug (ps.map Post.slug) (slugify r.title) with
    | error e => rw [hs] at h; cases h
    | ok slug =>
        rw [hs] at h
        simp only [Except.ok.injEq, Prod.mk.injEq] at h
        obtain ⟨hp, hps⟩ := h
        subst hps
        subst hp
        exact ⟨rfl, rfl⟩

/-- C3: two successive creates with the same title yield distinct slugs in
every store; from an empty store the first create takes the derived slug
and the second appends the numeric suffix. -/
theorem create_same_title_distinct_slugs :
    (∀ (ps : List Post) (r : CreateReq) (n1 n2 : Nat) (p1 p2 : Post)
        (ps1 ps2 : List Post),
        createPost ps r n1 = Except.ok (p1, ps1) →
        createPost ps1 r n2 = Except.ok (p2, ps2) →
        p1.slug ≠ p2.slug) ∧
    (∀ (r : CreateReq) (n1 n2 : Nat) (p1 p2 : Post) (ps1 ps2 : List Post),
        createPost [] r n1 = Except.ok (p1, ps1) →
        createPost ps1 r n2 = Except.ok (p2, ps2) →
        p1.slug = slugify r.title ∧ p2.slug = p1.slug ++ "-" ++ toString 2) := by
  constructor
  · intro ps r n1 n2 p1 p2 ps1 ps2 h1 h2
    obtain ⟨-, hps1⟩ := createPost_ok_slug h1
    obtain ⟨hu2, -⟩ := createPost_ok_slug h2
    have hnot := uniqueSlug_ok_not_mem hu2
    intro he
    apply hnot
    rw [← he, hps1]
    simp
  · intro r n1 n2 p1 p2 ps1 ps2 h1 h2
    obtain ⟨hu1, hps1⟩ := createPost_ok_slug h1
    obtain ⟨hu2, -⟩ := createPost_ok_slug h2
    have hps1b : ps1 = [p1] := by simpa using hps1
    subst hps1b
    rw [show List.map Post.slug ([] : List Post) = ([] : List String) from rfl,
      uniqueSlug, if_neg (List.not_mem_nil _)] at hu1
    injection hu1 with hbase
    refine ⟨hbase.symm, ?_⟩
    rw [show List.map Post.slug [p1] = [p1.slug] from rfl, ← hbase,
      uniqueSlug, if_pos (List.mem_singleton_self _),
      show (3 : Nat) = 2 + 1 from rfl, trySuffix,
      if_neg (by rw [List.mem_singleton]; exact suffixed_ne _ 2)] at hu2
    injection hu2 with hsb
    rw [← hbase, ← hsb]

/-- The slug-collision policy at the spec's own scenario: two creates of
"Hello World" give "hello-world" and "hello-world-2". -/
theorem create_same_title_distinct_slugs_witness :
    hwPost1.slug = slugify helloReq.title ∧
      hwPost2.slug = hwPost1.slug ++ "-" ++ toString 2 :=
  create_same_title_distinct_slugs.2 helloReq 0 1 hwPost1 hwPost2 [hwPost1]
    [hwPost1, hwPost2] rfl rfl

/-! ## C4: authentication gate on the admin API -/

/-- C4: with an absent or mismatched bearer credential, every admin
endpoint fails with AuthenticationError, the store is untouched, and the
response does not depend on the store, so it cannot reveal whether the
addressed resource exists. -/
theorem admin_auth_required (secret : String) (auth : Option String) (op : AdminOp)
    (now : Nat) (s s2 : Store) (h : auth ≠ some secret) :
    (handleAdmin secret auth op now s).1 = Except.error RepoError.authenticationError ∧
    (handleAdmin secret auth op now s).2 = s ∧
    (handleAdmin secret auth op now s).1 = (handleAdmin secret auth op now s2).1 := by
  have e1 : handleAdmin secret auth op now s =
      (Except.error RepoError.authenticationError, s) := by
    rw [handleAdmin.eq_def, if_neg h]
  have e2 : handleAdmin secret auth op now s2 =
      (Except.error RepoError.authenticationError, s2) := by
    rw [handleAdmin.eq_def, if_neg h]
  rw [e1, e2]
  exact ⟨rfl, rfl, rfl⟩

/-- The authentication gate at a concrete request: no credential, a delete
of an id that exists in one store and not in the other. -/
theorem admin_auth_required_witness :
    (handleAdmin "s3cret" none (AdminOp.delete 1) 9 { posts := [], categories := [] }).1 =
        Except.error RepoError.authenticationError ∧
      (handleAdmin "s3cret" none (AdminOp.delete 1) 9
          { posts := [], categories := [] }).2 = { posts := [], categories := [] } ∧
      (handleAdmin "s3cret" none (AdminOp.delete 1) 9 { posts := [], categories := [] }).1 =
        (handleAdmin "s3cret" none (AdminOp.delete 1) 9
          { posts := [hwPost1], categories := [] }).1 :=
  admin_auth_required "s3cret" none (AdminOp.delete 1) 9 { posts := [], categories := [] }
    { posts := [hwPost1], categories := [] } (by decide)

/-! ## C5 and C6: listing is status-faithful and ordered -/

theorem mem_listPosts_filter {ps : List Post} {sF : Option Status} {cF : Option String}
    {lim : Option Nat} {p : Post} (hp : p ∈ listPosts ps sF cF lim) :
    matchesFilter sF cF p = true := by
  have hp2 : p ∈ List.insertionSort pubDesc (ps.filter (matchesFilter sF cF)) := by
    rcases lim with _ | n
    · exact hp
    · exact (List.take_sublist _ _).mem hp
  have hp3 : p ∈ ps.filter (matchesFilter sF cF) :=
    (List.perm_insertionSort pubDesc _).mem_iff.mp hp2
  exact (List.mem_filter.mp hp3).2

/-- C5: a listing filtered to PUBLISHED contains no DRAFT record, in the
repository model and likewise in the dashboard's client-side status
filter. -/
theorem list_published_no_draft :
    (∀ (ps : List Post) (catF : Option String) (lim : Option Nat) (p : Post),
        p ∈ listPosts ps (some Status.published) catF lim →
        p.status ≠ Status.draft) ∧
    (∀ (posts : List DashPost) (q : DashPost),
        q ∈ filteredPosts "PUBLISHED" posts → q.status ≠ "DRAFT") := by
  constructor
  · intro ps catF lim p hp
    have hf := mem_listPosts_filter hp
    rw [matchesFilter.eq_def] at hf
    simp only [Bool.and_eq_true, decide_eq_true_eq] at hf
    intro hd
    rw [hd] at hf
    exact absurd hf.1 (by decide)
  · intro posts q hq
    rw [filteredPosts, if_neg (by decide)] at hq
    have hf := (List.mem_filter.mp hq).2
    rw [decide_eq_true_eq] at hf
    rw [hf]
    decide

/-- The status filters at concrete inputs: a published repository post and
a PUBLISHED dashboard row. -/
theorem list_published_no_draft_witness :
    pubPost.status ≠ Status.draft ∧ dashRow.status ≠ "DRAFT" :=
  ⟨list_published_no_draft.1 [pubPost] none none pubPost (by decide),
   list_published_no_draft.2 [dashRow] dashRow (by decide)⟩

/-- C6: every listing the repository returns is ordered by `published_at`
descending: each post's key is at least that of every later post. -/
theorem list_sorted_desc (ps : List Post) (sF : Option Status) (cF : Option String)
    (lim : Option Nat) : (listPosts ps sF cF lim).Sorted pubDesc := by
  have hs : List.Pairwise pubDesc
      (List.insertionSort pubDesc (ps.filter (matchesFilter sF cF))) :=
    List.sorted_insertionSort pubDesc _
  rcases lim with _ | n
  · exact hs
  · exact hs.sublist (List.take_sublist _ _)

/-! ## C7: blank titles are rejected -/

/-- C7: a create whose title is empty or blank after trimming fails with
ValidationError — the repository produces no post and the admin endpoint
returns the store unchanged. -/
theorem create_blank_title_validation_error (r : CreateReq) (now : Nat)
    (h : jsTrim r.title = "") :
    (∀ ps : List Post, createPost ps r now = Except.error RepoError.validationError) ∧
    (∀ (secret : String) (s : Store),
        handleAdmin secret (some secret) (AdminOp.create r) now s =
          (Except.error RepoError.validationError, s)) := by
  have hc : ∀ ps : List Post,
      createPost ps r now = Except.error RepoError.validationError := by
    intro ps
    rw [createPost, if_pos h]
  refine ⟨hc, ?_⟩
  intro secret s
  rw [handleAdmin.eq_def, if_pos rfl]
  show (match createPost s.posts r now with
    | Except.ok (p, ps) => (Except.ok (ApiResult.post p), { s with posts := ps })
    | Except.error e => (Except.error e, s)) = (Except.error RepoError.validationError, s)
  rw [hc s.posts]

/-- Blank-title rejection at a concrete request made only of spaces. -/
theorem create_blank_title_validation_error_witness :
    createPost [] { title := "   " } 5 = Except.error RepoError.validationError ∧
      handleAdmin "s3cret" (some "s3cret") (AdminOp.create { title := "   " }) 5
          { posts := [], categories := [] } =
        (Except.error RepoError.validationError, { posts := [], categories := [] }) :=
  ⟨(create_blank_title_validation_error { title := "   " } 5 (by decide)).1 [],
   (create_blank_title_validation_error { title := "   " } 5 (by decide)).2 "s3cret"
     { posts := [], categories := [] }⟩

/-! ## C8: the public API performs no mutation -/

/-- C8: every public operation returns the store it was given: the public
surface reads but never writes. -/
theorem public_api_pure (op : PublicOp) (s : Store) : (handlePublic op s).2 = s := by
  cases op with
  | listPosts c n => rfl
  | latest =>
      show (match latestPublished s.posts with
        | some p => (Except.ok (ApiResult.post p), s)
        | none => (Except.error RepoError.notFoundError, s)).2 = s
      cases latestPublished s.posts with
      | some p => rfl
      | none => rfl
  | bySlug sl =>
      show (match getBySlugPublic s.posts sl with
        | Except.ok p => (Except.ok (ApiResult.post p), s)
        | Except.error e => (Except.error e, s)).2 = s
      cases getBySlugPublic s.posts sl with
      | ok p => rfl
      | error e => rfl
  | listCategories => rfl

/-! ## C9: the home page's recent posts -/

/-- C9: the home page's recent-post strip holds at most three posts and
never repeats the featured latest post. -/
theorem recentPosts_bounded_and_disjoint (latest : Option Post) (posts : List Post) :
    (recentPosts latest posts).length ≤ 3 ∧
      ∀ p ∈ recentPosts latest posts, ∀ l, latest = some l → p.id ≠ l.id := by
  constructor
  · rw [recentPosts, List.length_take]
    omega
  · intro p hp l hl
    have hmem := List.mem_filter.mp ((List.take_sublist _ _).mem hp)
    have hd := of_decide_eq_true hmem.2
    intro hid
    apply hd
    rw [hl]
    simp [hid]

/-- The recent-post computation at a concrete pair of responses: the
featured post is excluded and the strip stays within three entries. -/
theorem recentPosts_bounded_and_disjoint_witness :
    (recentPosts (some pubPost) [pubPost, hwPost1]).length ≤ 3 ∧
      hwPost1.id ≠ pubPost.id :=
  ⟨(recentPosts_bounded_and_disjoint (some pubPost) [pubPost, hwPost1]).1,
   (recentPosts_bounded_and_disjoint (some pubPost) [pubPost, hwPost1]).2 hwPost1
     (by decide) pubPost rfl⟩

/-! ## C10: the auth store's login -/

/-- C10: `login` stores the candidate token, both in the store and in the
localStorage slot, exactly when the server accepts the credential the
verification request sends — which, by the request builder's precedence,
is the stored token whenever a non-empty one exists and the candidate
only otherwise; on rejection `login` returns `false` and leaves the
previously stored state unchanged. -/
theorem login_stores_iff_verified (st : AuthState) (candidate : String)
    (accepts : Option String → Bool) :
    (login st candidate accepts =
        ({ token := some candidate, storedToken := some candidate }, true) ↔
      accepts (sentCredential st candidate) = true) ∧
    (accepts (sentCredential st candidate) = false →
      login st candidate accepts = (st, false)) := by
  constructor
  · constructor
    · intro h
      by_cases ha : accepts (sentCredential st candidate) = true
      · exact ha
      · rw [login, if_neg ha] at h
        have h2 := congrArg Prod.snd h
        simp at h2
    · intro ha
      rw [login, if_pos ha]
  · intro ha
    rw [login, if_neg (by rw [ha]; exact Bool.false_ne_true)]

/-- The login behaviour at concrete states: when the verification request
is accepted the candidate replaces the stored token, and when it is
rejected nothing changes and `login` yields `false`. -/
theorem login_stores_iff_verified_witness :
    login { token := some "old", storedToken := some "old" } "new" (fun _ => true) =
        ({ token := some "new", storedToken := some "new" }, true) ∧
      login { token := some "old", storedToken := some "old" } "bad" (fun _ => false) =
        ({ token := some "old", storedToken := some "old" }, false) :=
  ⟨(login_stores_iff_verified { token := some "old", storedToken := some "old" } "new"
      (fun _ => true)).1.mpr rfl,
   (login_stores_iff_verified { token := some "old", storedToken := some "old" } "bad"
      (fun _ => false)).2 rfl⟩

end Blog
